import Mathlib

/-!
Formal model of `src/benford.py`: a Benford's-law fraud-detection pipeline.

The core pipeline is
  `count_first_digits` (spec: FrequencyCounter, using DigitExtractor) →
  `get_expected_counts` (spec: ExpectedDistribution) →
  `chi_squared_test` (spec: GoodnessOfFitTest, delegating to
  `scipy.stats.chisquare`).

Python values reaching the digit counter are modelled by `PyValue`:
an `int`, a `float` (represented by the decimal string `str(value)`
produces for it, which is the only way the code consumes floats),
a `str`, or a value of any other type (represented by its type name).
Python exceptions are modelled by `PyError`; fallible code returns
`Except PyError`.  Real arithmetic of the statistics part is modelled
over `ℚ`, with the IEEE special values `inf`/`-inf`/`nan` made explicit
by `NpFloat`, since they arise from NumPy division by zero.
-/

/-- A Python value as consumed by `count_first_digits`.  A float is
represented by the decimal string `str` produces for it (the code only
ever looks at that string); any non-numeric non-string value is
represented by its type name, used in the `ValueError` message. -/
inductive PyValue where
  | pyInt (n : Int)
  | pyFloat (s : String)
  | pyStr (s : String)
  | pyOther (typeName : String)
deriving DecidableEq, Repr

/-- Python exceptions raised by the modelled code paths. -/
inductive PyError where
  | valueError (msg : String)
  | keyError (key : Int)
  | indexError
deriving DecidableEq, Repr

/-- `str(value)` for the numeric cases: `str` of a Python `int` is its
decimal rendering with a leading minus sign for negatives (which
`toString : Int → String` reproduces); `str` of a float is the stored
representation string. -/
def pyStrOfNumeric : PyValue → Option String
  | .pyInt n => some (toString n)
  | .pyFloat s => some s
  | _ => none

/-- `int(c)` applied to a one-character string taken from the front of
`s`: line 62/64 of `benford.py` computes `int(str(value)[0])` resp.
`int(value[0])`.  Indexing an empty string raises `IndexError`;
`int` on a non-digit character raises `ValueError`. -/
def intOfFirstChar (s : String) : Except PyError Int :=
  match s.data with
  | [] => .error .indexError
  | c :: _ =>
      if c.isDigit then .ok ((c.toNat - 48 : Nat) : Int)
      else .error (.valueError ("invalid literal for int: " ++ String.mk [c]))

/-- Lines 61–66 of `benford.py`: the digit-extraction step applied to a
single value (spec component DigitExtractor).  `int`/`float` values go
through `str`; strings are indexed directly; anything else raises
`ValueError('Wrong data format: ...')`. -/
def firstDigit : PyValue → Except PyError Int
  | .pyInt n => intOfFirstChar (toString n)
  | .pyFloat s => intOfFirstChar s
  | .pyStr s => intOfFirstChar s
  | .pyOther typeName =>
      .error (.valueError ("Wrong data format: " ++ typeName))

/-- Increment position `k` of a count list (0-based). -/
def bump : List Nat → Nat → List Nat
  | [], _ => []
  | c :: cs, 0 => (c + 1) :: cs
  | c :: cs, k + 1 => c :: bump cs k

/-- Line 68 of `benford.py`: `first_digits[first_digit] += 1` on the
dict `{1: _, ..., 9: _}`; a key outside 1..9 raises `KeyError`.  The
dict is modelled by the list of its values in ascending key order
(digit `d` lives at position `d - 1`). -/
def incrDigit (tbl : List Nat) (d : Int) : Except PyError (List Nat) :=
  if 1 ≤ d ∧ d ≤ 9 then .ok (bump tbl (d.toNat - 1))
  else .error (.keyError d)

/-- The `for value in pandas_series` loop of `count_first_digits`,
threading the count table; an exception raised by either the digit
extraction or the table update aborts the loop and propagates. -/
def countLoop (tbl : List Nat) : List PyValue → Except PyError (List Nat)
  | [] => .ok tbl
  | v :: rest =>
      match firstDigit v with
      | .error e => .error e
      | .ok d =>
          match incrDigit tbl d with
          | .error e => .error e
          | .ok tbl2 => countLoop tbl2 rest

/-- Lines 57–69 of `benford.py` (spec component FrequencyCounter):
initialise all nine buckets to zero, count first digits, and return the
counts sorted by digit ascending (`sorted(first_digits.items())` on a
dict keyed 1..9 is exactly the table in position order). -/
def count_first_digits (values : List PyValue) : Except PyError (List Nat) :=
  countLoop (List.replicate 9 0) values

/-- Line 32 of `benford.py`: the Benford proportions for digits 1..9,
as exact decimal fractions. -/
def BENFORD_PROPS : List ℚ :=
  [301/1000, 176/1000, 125/1000, 97/1000, 79/1000, 67/1000, 58/1000, 51/1000, 46/1000]

/-- Python 3 `round` on a real value: nearest integer, ties to even
(banker's rounding), as documented for the built-in `round`. -/
def pyRound (q : ℚ) : Int :=
  if q - ⌊q⌋ < 1/2 then ⌊q⌋
  else if 1/2 < q - ⌊q⌋ then ⌊q⌋ + 1
  else if ⌊q⌋ % 2 = 0 then ⌊q⌋ else ⌊q⌋ + 1

/-- Lines 72–74 of `benford.py` (spec component ExpectedDistribution):
`[round(n_observations * prop) for prop in BENFORD_PROPS]`. -/
def get_expected_counts (n_observations : Nat) : List Int :=
  BENFORD_PROPS.map (fun prop => pyRound (n_observations * prop))

/-- A NumPy double, idealised: a finite value is an exact rational, and
the special values `inf`, `-inf`, `nan` are explicit.  The special
values matter here because `scipy.stats.chisquare` divides by the
expected counts and NumPy division by zero yields `inf`/`nan` (with a
warning) rather than raising. -/
inductive NpFloat where
  | num (q : ℚ)
  | inf
  | ninf
  | nan
deriving DecidableEq, Repr

/-- NumPy addition on doubles: `nan` is absorbing, `inf + -inf = nan`,
infinities absorb finite values. -/
def npAdd : NpFloat → NpFloat → NpFloat
  | .nan, _ => .nan
  | _, .nan => .nan
  | .inf, .ninf => .nan
  | .ninf, .inf => .nan
  | .inf, _ => .inf
  | _, .inf => .inf
  | .ninf, _ => .ninf
  | _, .ninf => .ninf
  | .num a, .num b => .num (a + b)

/-- NumPy `sum` over a vector of doubles (sum of the empty vector
is `0.0`). -/
def npSum (l : List NpFloat) : NpFloat :=
  l.foldr npAdd (.num 0)

/-- One term `(f_obs[i] - f_exp[i])**2 / f_exp[i]` of the chi-squared
statistic, over finite inputs: NumPy division of a positive number by
zero gives `inf`, and `0.0 / 0.0` gives `nan` (no exception in either
case). -/
def chiTerm (o e : ℚ) : NpFloat :=
  if e = 0 then (if o = e then .nan else .inf)
  else .num ((o - e) ^ 2 / e)

/-- Modelled from the external library `scipy.stats.chisquare`
(the repository code calls it but its source is not part of the
repository), following its documented semantics: the statistic is
`sum((f_obs - f_exp)**2 / f_exp)` and the p-value is the survival
function (upper-tail probability) of the chi-squared distribution with
`len(f_obs) - 1` degrees of freedom evaluated at the statistic.  The
chi-squared survival function is a continuous-distribution tail
probability, kept abstract here as the parameter `sf` (degrees of
freedom, statistic) ↦ probability; the model records exactly which
query the code makes of it. -/
def chisquare (sf : Int → NpFloat → NpFloat) (f_obs f_exp : List ℚ) :
    NpFloat × NpFloat :=
  let terms := List.zipWith chiTerm f_obs f_exp
  let stat := npSum terms
  (stat, sf ((f_obs.length : Int) - 1) stat)

/-- Lines 77–79 of `benford.py` (spec component GoodnessOfFitTest):
a direct pass-through to `scipy.stats.chisquare`. -/
def chi_squared_test (sf : Int → NpFloat → NpFloat)
    (actual expected : List ℚ) : NpFloat × NpFloat :=
  chisquare sf actual expected

/-- Is an `NpFloat` a finite number? -/
def npFinite : NpFloat → Bool
  | .num _ => true
  | _ => false

/-- The goodness-of-fit statistic exactly as the specification words
it: the sum over i of `(observed[i] - expected[i])^2 / expected[i]`.
This definition follows the spec text and is compared against the
modelled library computation in the refinement theorem for C5. -/
def gofSpecStatistic (observed expected : List ℚ) : ℚ :=
  ∑ i ∈ Finset.range observed.length,
    (observed.getD i 0 - expected.getD i 0) ^ 2 / expected.getD i 0

/-- The state of the `for value in pandas_series` loop in
`count_first_digits`, with the input series carried explicitly so that
(absence of) mutation of the input is visible: the loop body reads
`series[idx]` and writes only the count table. -/
structure LoopState where
  series : List PyValue
  tbl : List Nat
  idx : Nat
deriving DecidableEq, Repr

/-- One iteration of the loop of `count_first_digits`, as explicit
state passing: read the next value (if the series is exhausted, the
state is unchanged), extract its first digit, and increment the table.
Every access the source makes to the series is a read. -/
def cfd_step (s : LoopState) : Except PyError LoopState :=
  match s.series[s.idx]? with
  | none => .ok s
  | some v =>
      match firstDigit v with
      | .error e => .error e
      | .ok d =>
          match incrDigit s.tbl d with
          | .error e => .error e
          | .ok tbl2 => .ok { series := s.series, tbl := tbl2, idx := s.idx + 1 }

/-- Run `n` iterations of the `count_first_digits` loop; an exception
aborts the run. -/
def cfd_run : Nat → LoopState → Except PyError LoopState
  | 0, s => .ok s
  | n + 1, s =>
      match cfd_step s with
      | .error e => .error e
      | .ok s2 => cfd_run n s2

/-! ### Helper lemmas -/

lemma bump_length (l : List Nat) (k : Nat) : (bump l k).length = l.length := by
  induction l generalizing k with
  | nil => rfl
  | cons c cs ih =>
      cases k with
      | zero => rfl
      | succ k => simpa [bump] using ih k

lemma bump_sum (l : List Nat) (k : Nat) (hk : k < l.length) :
    (bump l k).sum = l.sum + 1 := by
  induction l generalizing k with
  | nil => simp at hk
  | cons c cs ih =>
      cases k with
      | zero => simp [bump, Nat.add_comm, Nat.add_assoc, Nat.add_left_comm]
      | succ k =>
          have hk2 : k < cs.length := by simpa using hk
          simp [bump, ih k hk2, Nat.add_assoc]

lemma incrDigit_ok (tbl out : List Nat) (d : Int)
    (h : incrDigit tbl d = .ok out) :
    1 ≤ d ∧ d ≤ 9 ∧ out = bump tbl (d.toNat - 1) := by
  unfold incrDigit at h
  split at h
  · next hd =>
      injection h with h2
      exact ⟨hd.1, hd.2, h2.symm⟩
  · exact Except.noConfusion h

lemma countLoop_ok (values : List PyValue) (tbl out : List Nat)
    (hlen : tbl.length = 9)
    (h : countLoop tbl values = .ok out) :
    out.length = 9 ∧ out.sum = tbl.sum + values.length := by
  induction values generalizing tbl with
  | nil =>
      simp only [countLoop] at h
      injection h with h2
      subst h2
      exact ⟨hlen, by simp⟩
  | cons v rest ih =>
      simp only [countLoop] at h
      cases hd : firstDigit v with
      | error e => rw [hd] at h; exact Except.noConfusion h
      | ok d =>
          rw [hd] at h
          dsimp only at h
          cases hi : incrDigit tbl d with
          | error e => rw [hi] at h; exact Except.noConfusion h
          | ok tbl2 =>
              rw [hi] at h
              obtain ⟨h1, h2, h3⟩ := incrDigit_ok tbl tbl2 d hi
              have hlen2 : tbl2.length = 9 := by
                rw [h3, bump_length]; exact hlen
              have hk : d.toNat - 1 < tbl.length := by
                rw [hlen]; omega
              have hsum2 : tbl2.sum = tbl.sum + 1 := by
                rw [h3, bump_sum tbl _ hk]
              obtain ⟨hA, hB⟩ := ih tbl2 hlen2 h
              refine ⟨hA, ?_⟩
              rw [hB, hsum2]
              simp only [List.length_cons]
              omega

/-! ### Claims -/

/-- C1: the spec states that DigitExtractor skips the non-significant
characters `-`, `0`, `.` before taking the first digit 1–9 and never
returns 0, with DigitExtractor(123) = 1, DigitExtractor(0.0456) = 4,
DigitExtractor("789") = 7, DigitExtractor(-55) = 5.  The code instead
takes the literal first character of the value's string form: 123 and
"789" work as claimed, but -55 raises `ValueError` (from `int('-')`)
and 0.0456 yields digit 0; the spec itself (§9) flags this literal
first-character behaviour as a latent bug, so the code contradicts the
spec's stated intent. -/
theorem c1_digit_extractor_literal_first_char :
    firstDigit (PyValue.pyInt 123) = .ok 1 ∧
    firstDigit (PyValue.pyStr "789") = .ok 7 ∧
    firstDigit (PyValue.pyInt (-55))
      = .error (.valueError "invalid literal for int: -") ∧
    firstDigit (PyValue.pyFloat "0.0456") = .ok 0 :=
  ⟨rfl, rfl, rfl, rfl⟩

/-- C8: for every numeric input value whose decimal string
representation begins with the character `0` (for example the float
0.0456), FrequencyCounter raises an uncaught `KeyError` when
incrementing the digit table (which holds only the keys 1..9); this is
a `KeyError`, not the spec's InvalidValueKind (`ValueError`). -/
theorem c8_leading_zero_numeric_keyerror (v : PyValue) (s : String)
    (rest : List PyValue)
    (hnum : pyStrOfNumeric v = some s) (h0 : s.data.head? = some '0') :
    count_first_digits (v :: rest) = .error (.keyError 0) := by
  have hint : intOfFirstChar s = .ok 0 := by
    obtain ⟨l⟩ := s
    cases l with
    | nil => simp at h0
    | cons c t =>
        simp only [List.head?] at h0
        injection h0 with hc
        subst hc
        rfl
  have hfd : firstDigit v = .ok 0 := by
    cases v with
    | pyInt n =>
        simp only [pyStrOfNumeric, Option.some.injEq] at hnum
        show intOfFirstChar (toString n) = .ok 0
        rw [hnum]; exact hint
    | pyFloat s2 =>
        simp only [pyStrOfNumeric, Option.some.injEq] at hnum
        show intOfFirstChar s2 = .ok 0
        rw [hnum]; exact hint
    | pyStr s2 => exact absurd hnum (by simp [pyStrOfNumeric])
    | pyOther t => exact absurd hnum (by simp [pyStrOfNumeric])
  show countLoop (List.replicate 9 0) (v :: rest) = .error (.keyError 0)
  simp only [countLoop, hfd]
  rfl

/-- C8 witness: the float 0.0456 (whose `str` is "0.0456") makes
`count_first_digits` raise `KeyError` on key 0. -/
theorem c8_witness :
    count_first_digits [PyValue.pyFloat "0.0456"] = .error (.keyError 0) :=
  c8_leading_zero_numeric_keyerror (PyValue.pyFloat "0.0456") "0.0456" []
    rfl rfl

/-- C3: whenever FrequencyCounter returns (does not raise), its output
has exactly 9 nonnegative counts whose sum equals the number of input
values. -/
theorem c3_frequency_counter_shape (values : List PyValue)
    (counts : List Nat) (h : count_first_digits values = .ok counts) :
    counts.length = 9 ∧ (∀ c ∈ counts, 0 ≤ c) ∧
      counts.sum = values.length := by
  obtain ⟨hA, hB⟩ :=
    countLoop_ok values (List.replicate 9 0) counts (by simp) h
  refine ⟨hA, fun c _ => Nat.zero_le c, ?_⟩
  simpa using hB

/-- C3 witness: on the input [123, "789", 555] the counter returns
nine counts summing to 3. -/
theorem c3_witness :
    ([1, 0, 0, 0, 1, 0, 1, 0, 0] : List Nat).length = 9 ∧
    (∀ c ∈ ([1, 0, 0, 0, 1, 0, 1, 0, 0] : List Nat), 0 ≤ c) ∧
    ([1, 0, 0, 0, 1, 0, 1, 0, 0] : List Nat).sum
      = ([PyValue.pyInt 123, PyValue.pyStr "789",
          PyValue.pyInt 555] : List PyValue).length :=
  c3_frequency_counter_shape
    [PyValue.pyInt 123, PyValue.pyStr "789", PyValue.pyInt 555]
    [1, 0, 0, 0, 1, 0, 1, 0, 0] rfl

lemma countLoop_append_other (pre : List PyValue) (typeName : String)
    (post : List PyValue) :
    ∀ tbl : List Nat,
    (∀ v ∈ pre, ∃ d : Int, firstDigit v = .ok d ∧ 1 ≤ d ∧ d ≤ 9) →
    countLoop tbl (pre ++ PyValue.pyOther typeName :: post)
      = .error (.valueError ("Wrong data format: " ++ typeName)) := by
  induction pre with
  | nil => intro tbl _; rfl
  | cons v ps ih =>
      intro tbl hpre
      obtain ⟨d, hfd, hd1, hd9⟩ := hpre v (by simp)
      simp only [List.cons_append, countLoop]
      rw [hfd]
      dsimp only
      have hincr : incrDigit tbl d = .ok (bump tbl (d.toNat - 1)) := by
        unfold incrDigit; rw [if_pos ⟨hd1, hd9⟩]
      rw [hincr]
      exact ih _ (fun u hu => hpre u (by simp [hu]))

/-- C7 counterexample: an input containing a non-numeric non-string
value on which FrequencyCounter nevertheless fails with a `KeyError`
(raised on the earlier float 0.0456), not with the InvalidValueKind
`ValueError` the claim requires; so the claim does not hold for every
input containing such a value. -/
theorem c7_counterexample :
    PyValue.pyOther "<class NoneType>"
      ∈ [PyValue.pyFloat "0.0456", PyValue.pyOther "<class NoneType>"] ∧
    count_first_digits
        [PyValue.pyFloat "0.0456", PyValue.pyOther "<class NoneType>"]
      = .error (.keyError 0) ∧
    (∀ msg, PyError.keyError 0 ≠ PyError.valueError msg) :=
  ⟨by simp, rfl, fun msg h => PyError.noConfusion h⟩

/-- C7 (amended): when every value before the first non-numeric
non-string value extracts to a digit 1–9 without error,
FrequencyCounter fails with the `ValueError('Wrong data format: ...')`
raised by the digit extractor on that value, propagated unchanged,
with no partial result. -/
theorem c7_invalid_kind_fail_fast (pre : List PyValue) (typeName : String)
    (post : List PyValue)
    (hpre : ∀ v ∈ pre, ∃ d : Int, firstDigit v = .ok d ∧ 1 ≤ d ∧ d ≤ 9) :
    count_first_digits (pre ++ PyValue.pyOther typeName :: post)
      = .error (.valueError ("Wrong data format: " ++ typeName)) :=
  countLoop_append_other pre typeName post (List.replicate 9 0) hpre

/-- C7 witness: an integer value followed by a non-numeric non-string
value fails with the propagated `ValueError`. -/
theorem c7_witness :
    count_first_digits
        [PyValue.pyInt 123, PyValue.pyOther "<class NoneType>"]
      = .error (.valueError ("Wrong data format: " ++ "<class NoneType>")) :=
  c7_invalid_kind_fail_fast [PyValue.pyInt 123] "<class NoneType>" []
    (by
      intro v hv
      simp only [List.mem_singleton] at hv
      subst hv
      exact ⟨1, rfl, by decide, by decide⟩)

lemma cfd_step_series (s t : LoopState) (h : cfd_step s = .ok t) :
    t.series = s.series := by
  unfold cfd_step at h
  cases hg : s.series[s.idx]? with
  | none =>
      rw [hg] at h
      injection h with h2
      rw [← h2]
  | some v =>
      rw [hg] at h
      dsimp only at h
      cases hd : firstDigit v with
      | error e => rw [hd] at h; exact Except.noConfusion h
      | ok d =>
          rw [hd] at h
          dsimp only at h
          cases hi : incrDigit s.tbl d with
          | error e => rw [hi] at h; exact Except.noConfusion h
          | ok tbl2 =>
              rw [hi] at h
              injection h with h2
              rw [← h2]

/-- C9: the `count_first_digits` loop never mutates the input series:
however many iterations run, the series in the final state is the
series the run started from (the loop body only reads the series and
writes the fresh count table). -/
theorem c9_no_input_mutation (n : Nat) (s t : LoopState)
    (h : cfd_run n s = .ok t) : t.series = s.series := by
  induction n generalizing s with
  | zero =>
      simp only [cfd_run] at h
      injection h with h2
      rw [← h2]
  | succ n ih =>
      simp only [cfd_run] at h
      cases hs : cfd_step s with
      | error e => rw [hs] at h; exact Except.noConfusion h
      | ok s2 =>
          rw [hs] at h
          exact (ih s2 h).trans (cfd_step_series s s2 hs)

/-- C9 witness: running the loop to completion on the one-element
series [123] leaves the series unchanged. -/
theorem c9_witness :
    (LoopState.mk [PyValue.pyInt 123] [1, 0, 0, 0, 0, 0, 0, 0, 0] 1).series
      = (LoopState.mk [PyValue.pyInt 123] (List.replicate 9 0) 0).series :=
  c9_no_input_mutation 1
    (LoopState.mk [PyValue.pyInt 123] (List.replicate 9 0) 0)
    (LoopState.mk [PyValue.pyInt 123] [1, 0, 0, 0, 0, 0, 0, 0, 0] 1) rfl

lemma get_expected_counts_getD (total : Nat) (i : Fin 9) :
    (get_expected_counts total).getD (i : Nat) 0
      = pyRound (total * BENFORD_PROPS.getD (i : Nat) 0) := by
  fin_cases i <;> rfl

/-- C4: for every nonnegative integer total, ExpectedDistribution
returns exactly 9 elements, the element for digit i being
`round(total * BENFORD_PROPS[i])`; for total = 1000 the counts sum to
1000 exactly, so certainly within the claimed rounding slack of 9. -/
theorem c4_expected_counts_shape (total : Nat) :
    (get_expected_counts total).length = 9 ∧
    (∀ i : Fin 9, (get_expected_counts total).getD (i : Nat) 0
        = pyRound (total * BENFORD_PROPS.getD (i : Nat) 0)) ∧
    ((get_expected_counts 1000).sum - 1000).natAbs ≤ 9 := by
  refine ⟨?_, get_expected_counts_getD total, ?_⟩
  · simp [get_expected_counts, BENFORD_PROPS]
  · have hval : get_expected_counts 1000
        = [301, 176, 125, 97, 79, 67, 58, 51, 46] := by
      norm_num [get_expected_counts, BENFORD_PROPS, pyRound]
    rw [hval]
    decide

lemma pyRound_half (m : Int) :
    pyRound ((m : ℚ) + 1/2) = if m % 2 = 0 then m else m + 1 := by
  have hfloor : ⌊(m : ℚ) + 1/2⌋ = m := by
    rw [add_comm, Int.floor_add_int]
    norm_num
  unfold pyRound
  rw [hfloor]
  have hr : (m : ℚ) + 1/2 - m = 1/2 := by ring
  rw [hr]
  norm_num

/-- C10: the code resolves the spec's "standard round-half rules" as
round-half-to-even (Python 3 built-in `round`): whenever
`total * BENFORD_PROPS[i]` is exactly halfway between integers m and
m + 1, the expected count for digit i is the even one of the two. -/
theorem c10_round_half_to_even (total : Nat) (i : Fin 9) (m : Int)
    (hhalf : (total : ℚ) * BENFORD_PROPS.getD (i : Nat) 0 = m + 1/2) :
    (get_expected_counts total).getD (i : Nat) 0
        = (if m % 2 = 0 then m else m + 1) ∧
    Even ((get_expected_counts total).getD (i : Nat) 0) := by
  have h1 := get_expected_counts_getD total i
  rw [hhalf, pyRound_half] at h1
  refine ⟨h1, ?_⟩
  rw [h1]
  split
  · next he => exact Int.even_iff.mpr he
  · next he =>
      exact Int.even_add_one.mpr (fun hev => he (Int.even_iff.mp hev))

/-- C10 witness: total = 4 and digit 3 (proportion 0.125) give the
exactly-halfway product 0.5, which rounds to the even integer 0 (and
not to 1, as rounding half away from zero would). -/
theorem c10_witness :
    (get_expected_counts 4).getD 2 0 = (if (0 : Int) % 2 = 0 then 0 else 0 + 1) ∧
    Even ((get_expected_counts 4).getD 2 0) :=
  c10_round_half_to_even 4 ⟨2, by decide⟩ 0
    (by
      show (4 : ℚ) * (125/1000) = ((0 : Int) : ℚ) + 1/2
      norm_num)

lemma npSum_cons (a : NpFloat) (l : List NpFloat) :
    npSum (a :: l) = npAdd a (npSum l) := rfl

lemma npAdd_finite (a b : NpFloat) (h : npFinite (npAdd a b) = true) :
    npFinite a = true ∧ npFinite b = true := by
  cases a <;> cases b <;> simp_all [npAdd, npFinite]

lemma npSum_notFinite (l : List NpFloat) (x : NpFloat) (hx : x ∈ l)
    (hnf : npFinite x = false) : npFinite (npSum l) = false := by
  induction l with
  | nil => exact absurd hx (List.not_mem_nil x)
  | cons a as ih =>
      rw [npSum_cons]
      cases hfin : npFinite (npAdd a (npSum as)) with
      | false => rfl
      | true =>
          obtain ⟨h1, h2⟩ := npAdd_finite _ _ hfin
          rcases List.mem_cons.mp hx with h | h
          · rw [h] at hnf; rw [hnf] at h1; exact Bool.noConfusion h1
          · rw [ih h] at h2; exact Bool.noConfusion h2

lemma chiTerm_zero_notFinite (o : ℚ) : npFinite (chiTerm o 0) = false := by
  unfold chiTerm
  rw [if_pos rfl]
  split <;> rfl

/-- C2 counterexample: with total observation count 0 the expected
counts are all 0, yet GoodnessOfFitTest does not fail: NumPy division
turns the 0/0 terms into `nan` (with a warning, not an exception), the
statistic is `nan`, and a (nan, nan) pair is returned.  No
DegenerateExpectedValue (or any other) error is raised. -/
theorem c2_counterexample :
    List.map (fun z : Int => (z : ℚ)) (get_expected_counts 0)
      = List.replicate 9 (0 : ℚ) ∧
    (0 : ℚ) ∈ List.replicate 9 (0 : ℚ) ∧
    chi_squared_test (fun _ _ => NpFloat.nan) (List.replicate 9 (0 : ℚ))
        (List.replicate 9 (0 : ℚ)) = (NpFloat.nan, NpFloat.nan) := by
  refine ⟨?_, by simp, ?_⟩
  · norm_num [get_expected_counts, BENFORD_PROPS, pyRound,
      List.replicate]
  · rfl

/-- C2 (amended): when some expected count is 0, GoodnessOfFitTest
does not raise an error; it returns a pair whose statistic is a
non-finite float (`nan` when the matching observed count is also 0,
infinite otherwise). -/
theorem c2_zero_expected_returns_nonfinite
    (sf : Int → NpFloat → NpFloat) (observed expected : List ℚ) (i : Nat)
    (hlen : observed.length = expected.length)
    (hi : i < expected.length) (hz : expected[i] = 0) :
    npFinite (chi_squared_test sf observed expected).1 = false := by
  have hi2 : i < observed.length := by rw [hlen]; exact hi
  have hizip : i < (List.zipWith chiTerm observed expected).length := by
    rw [List.length_zipWith]; omega
  have hmem : chiTerm observed[i] expected[i]
      ∈ List.zipWith chiTerm observed expected := by
    have hg : (List.zipWith chiTerm observed expected)[i]
        = chiTerm observed[i] expected[i] := List.getElem_zipWith
    rw [← hg]
    exact List.getElem_mem hizip
  have hnf : npFinite (chiTerm observed[i] expected[i]) = false := by
    rw [hz]; exact chiTerm_zero_notFinite _
  show npFinite (npSum (List.zipWith chiTerm observed expected)) = false
  exact npSum_notFinite _ _ hmem hnf

/-- C2 witness: observed all-zero counts against the expected counts
for total 0 give a non-finite (nan) statistic and no error. -/
theorem c2_witness :
    npFinite (chi_squared_test (fun _ _ => NpFloat.nan)
        (List.replicate 9 (0 : ℚ)) (List.replicate 9 (0 : ℚ))).1 = false :=
  c2_zero_expected_returns_nonfinite (fun _ _ => NpFloat.nan)
    (List.replicate 9 (0 : ℚ)) (List.replicate 9 (0 : ℚ)) 0
    rfl (by simp) rfl

lemma npSum_chiTerm_finite (observed expected : List ℚ)
    (hlen : observed.length = expected.length)
    (hnz : ∀ e ∈ expected, e ≠ 0) :
    npSum (List.zipWith chiTerm observed expected)
      = .num (gofSpecStatistic observed expected) := by
  induction observed generalizing expected with
  | nil =>
      cases expected with
      | nil => rfl
      | cons e es => exact absurd hlen (by simp)
  | cons o os ih =>
      cases expected with
      | nil => exact absurd hlen (by simp)
      | cons e es =>
          have he : e ≠ 0 := hnz e (by simp)
          have hlen2 : os.length = es.length := by simpa using hlen
          have hes : ∀ x ∈ es, x ≠ 0 := fun x hx => hnz x (by simp [hx])
          rw [List.zipWith_cons_cons, npSum_cons, ih es hlen2 hes]
          unfold chiTerm
          rw [if_neg he]
          have hspec : gofSpecStatistic (o :: os) (e :: es)
              = (o - e) ^ 2 / e + gofSpecStatistic os es := by
            unfold gofSpecStatistic
            rw [List.length_cons, Finset.sum_range_succ']
            simp only [List.getD_cons_succ, List.getD_cons_zero]
            ring
          rw [hspec]
          rfl

/-- C5: on equal-length inputs with all expected counts positive, the
library computation returns exactly the spec's statistic
`sum((observed[i] - expected[i])^2 / expected[i])`, and the probability
is the chi-squared upper-tail function (modelled abstractly as `sf`)
queried at that statistic with `length - 1` degrees of freedom. -/
theorem c5_statistic_and_dof (sf : Int → NpFloat → NpFloat)
    (observed expected : List ℚ)
    (hlen : observed.length = expected.length)
    (hpos : ∀ e ∈ expected, 0 < e) :
    chi_squared_test sf observed expected
      = (NpFloat.num (gofSpecStatistic observed expected),
         sf ((observed.length : Int) - 1)
           (NpFloat.num (gofSpecStatistic observed expected))) := by
  have hnz : ∀ e ∈ expected, e ≠ 0 := fun e he => ne_of_gt (hpos e he)
  show (npSum (List.zipWith chiTerm observed expected),
        sf ((observed.length : Int) - 1)
          (npSum (List.zipWith chiTerm observed expected))) = _
  rw [npSum_chiTerm_finite observed expected hlen hnz]

/-- C5 witness: observed [16, 18] against expected [17, 17] yields the
spec statistic (2/17) and the survival-function value at one degree of
freedom. -/
theorem c5_witness :
    chi_squared_test (fun _ _ => NpFloat.num (1/2))
        [(16 : ℚ), 18] [(17 : ℚ), 17]
      = (NpFloat.num (gofSpecStatistic [(16 : ℚ), 18] [(17 : ℚ), 17]),
         NpFloat.num (1/2)) :=
  c5_statistic_and_dof (fun _ _ => NpFloat.num (1/2))
    [(16 : ℚ), 18] [(17 : ℚ), 17] rfl (by norm_num)

lemma gofSpecStatistic_self (observed : List ℚ) :
    gofSpecStatistic observed observed = 0 := by
  unfold gofSpecStatistic
  exact Finset.sum_eq_zero (fun i _ => by simp)

/-- C6 counterexample: the claim fails in two ways.  For the observed
sequence [0], the self-test returns a `nan` statistic (NumPy 0/0), not
the claimed 0.0.  And for the observed sequence [5] the degrees of
freedom are `1 - 1 = 0`, where the chi-squared survival function is
undefined (`chi2.sf(0.0, 0)` is `nan` — here the concrete `sf` mimics
the true survival function, which is 1 at 0 only for positive degrees
of freedom), so the probability is `nan`, not the claimed 1.0. -/
theorem c6_counterexample :
    ((chi_squared_test (fun _ _ => NpFloat.nan) [(0 : ℚ)] [(0 : ℚ)]).1
        = NpFloat.nan ∧ NpFloat.nan ≠ NpFloat.num 0) ∧
    chi_squared_test
        (fun k x =>
          if 1 ≤ k ∧ x = NpFloat.num 0 then NpFloat.num 1 else NpFloat.nan)
        [(5 : ℚ)] [(5 : ℚ)]
      = (NpFloat.num 0, NpFloat.nan) := by
  refine ⟨⟨rfl, fun h => NpFloat.noConfusion h⟩, ?_⟩
  have hstat : npSum (List.zipWith chiTerm [(5 : ℚ)] [(5 : ℚ)])
      = NpFloat.num 0 := by
    rw [npSum_chiTerm_finite [(5 : ℚ)] [(5 : ℚ)] rfl (by norm_num),
      gofSpecStatistic_self]
  show (npSum (List.zipWith chiTerm [(5 : ℚ)] [(5 : ℚ)]),
      if 1 ≤ (([(5 : ℚ)].length : Int) - 1) ∧
          npSum (List.zipWith chiTerm [(5 : ℚ)] [(5 : ℚ)]) = NpFloat.num 0
        then NpFloat.num 1 else NpFloat.nan)
    = (NpFloat.num 0, NpFloat.nan)
  rw [hstat]
  norm_num

/-- C6 (amended): for every observed sequence with at least two
elements, all nonzero, GoodnessOfFitTest(observed, observed) returns
statistic 0.0 and probability 1.0.  The length bound makes the degrees
of freedom `length - 1` positive; the hypothesis on the abstract `sf`
states the true property of the chi-squared survival function on
exactly those degrees of freedom (it is 1 at 0 for every positive
dof), so it excludes none of the cases the amended claim covers. -/
theorem c6_selftest_perfect_fit (sf : Int → NpFloat → NpFloat)
    (observed : List ℚ) (hlen : 2 ≤ observed.length)
    (hnz : ∀ o ∈ observed, o ≠ 0)
    (hsf : ∀ k : Int, 1 ≤ k → sf k (NpFloat.num 0) = NpFloat.num 1) :
    chi_squared_test sf observed observed
      = (NpFloat.num 0, NpFloat.num 1) := by
  have hstat : npSum (List.zipWith chiTerm observed observed)
      = NpFloat.num 0 := by
    rw [npSum_chiTerm_finite observed observed rfl hnz,
      gofSpecStatistic_self]
  show (npSum (List.zipWith chiTerm observed observed),
        sf ((observed.length : Int) - 1)
          (npSum (List.zipWith chiTerm observed observed))) = _
  rw [hstat, hsf ((observed.length : Int) - 1) (by omega)]

/-- C6 witness: the self-test on [3, 5] returns statistic 0 and
probability 1, under a survival function that is 1 at 0 for every
positive degrees-of-freedom count. -/
theorem c6_witness :
    chi_squared_test
        (fun k x =>
          if 1 ≤ k ∧ x = NpFloat.num 0 then NpFloat.num 1 else NpFloat.nan)
        [(3 : ℚ), 5] [(3 : ℚ), 5]
      = (NpFloat.num 0, NpFloat.num 1) :=
  c6_selftest_perfect_fit _ [(3 : ℚ), 5] (by decide) (by norm_num)
    (fun k hk => by rw [if_pos ⟨hk, rfl⟩])
